import Mathlib

/-!
Verification of the `memoize` decorator from
`datamatrix/_functional/_memoize.py` (python-datamatrix).

The Python class is shallowly embedded: the wrapper object becomes the
`memoize` structure, the filesystem effects of `os` / `shutil` become an
explicit `FileSystem` value threaded through the operations, and `pickle`
is modelled as a faithful (injective) wrapping of values, which is what
the class documents ("only works for arguments and return values that can
be serialized").  Each method of the class becomes a Lean function with
the same name (leading underscores dropped).
-/

set_option maxHeartbeats 1000000

namespace Datamatrix

/-- A Python value, as far as the memoize decorator inspects values.
A `callable` carries, in order: whether `hasattr(v, '__name')` holds
(note: the *misspelled* attribute `'__name'` that the source code tests;
an ordinary Python function defines `__name__` but not `__name`, so for
ordinary functions this flag is `false`), the value of its `__name__`
attribute, and the value returned when it is called with no arguments
(used by lazy evaluation). -/
inductive PyVal where
  | int : Int → PyVal
  | str : String → PyVal
  | pyNone : PyVal
  | callable : Bool → String → PyVal → PyVal
deriving DecidableEq

/-- Models Python's `callable(v)` test. -/
def PyVal.isCallable : PyVal → Bool
  | PyVal.callable _ _ _ => true
  | _ => false

/-- Models invoking a value with no arguments, `v()`; only used on values
for which `isCallable` holds (the source guards every use the same way). -/
def PyVal.call0 : PyVal → PyVal
  | PyVal.callable _ _ r => r
  | v => v

/-- A pickled blob, `pickle.dumps(v)`.  Pickle round-trips faithfully on
the serializable values the decorator supports, so the blob is modelled as
a wrapper around the value itself. -/
structure Pickled where
  data : PyVal
deriving DecidableEq

/-- Models `pickle.dumps`. -/
def pickle_dumps (v : PyVal) : Pickled := Pickled.mk v

/-- Models `pickle.loads` / `pickle.load`. -/
def pickle_loads (p : Pickled) : PyVal := p.data

/-- A cache key string.  `explicitKey s` is a user-supplied key.
`hashed fname args kwdict` models
`hashlib.md5(pickle.dumps([fname, args, kwdict])).hexdigest()`: the digest
of the pickled payload is idealised as an injective function of the
payload, so the key is represented by the payload itself. -/
inductive MemKey where
  | explicitKey : String → MemKey
  | hashed : String → List PyVal → List (String × PyVal) → MemKey
deriving DecidableEq

/-- First-match association lookup; dictionaries (`self._cache`) and the
set of files on disk are modelled as association lists where the most
recent binding is consed at the front. -/
def alookup {α β : Type} [DecidableEq α] : List (α × β) → α → Option β
  | [], _ => none
  | e :: t, k => if e.1 = k then some e.2 else alookup t k

/-- The filesystem state touched by the decorator: the set of existing
directories, and the files `<folder>/<memkey>` with their pickled
contents. -/
structure FileSystem where
  dirs : List String
  files : List ((String × MemKey) × Pickled)
deriving DecidableEq

/-- Models `os.path.exists(folder)` for the storage directory. -/
def dir_exists (fs : FileSystem) (folder : String) : Bool :=
  decide (folder ∈ fs.dirs)

/-- Reads the file `os.path.join(folder, memkey)`, if it exists. -/
def file_lookup (fs : FileSystem) (folder : String) (k : MemKey) : Option Pickled :=
  alookup fs.files (folder, k)

/-- Models `os.path.exists(cache_path)` for a cache file. -/
def file_exists (fs : FileSystem) (folder : String) (k : MemKey) : Bool :=
  (file_lookup fs folder k).isSome

/-- Models `shutil.rmtree(folder)`: the directory and every file inside
it disappear. -/
def FileSystem.rmtree (fs : FileSystem) (folder : String) : FileSystem :=
  { dirs := fs.dirs.filter (fun d => !(decide (d = folder))),
    files := fs.files.filter (fun e => !(decide (e.1.1 = folder))) }

/-- A real filesystem state: every cache file lives inside an existing
directory. -/
def FileSystem.WF (fs : FileSystem) : Prop :=
  ∀ e ∈ fs.files, e.1.1 ∈ fs.dirs

/-- The wrapped Python function: its `__name__` and its behaviour on
positional plus keyword arguments. -/
structure PyFunc where
  name : String
  run : List PyVal → List (String × PyVal) → PyVal

/-- The state of a `memoize` instance: the constructor arguments
(`fnc`, `key`, `persistent`, `lazy`, `debug`, `folder`), the in-memory
cache `self._cache`, and `self._latest_source` (initially unset in
Python; modelled as `""`). -/
structure memoize where
  fnc : Option PyFunc
  key : Option String
  persistent : Bool
  lazy : Bool
  debug : Bool
  folder : String
  cache : List (MemKey × Pickled)
  latestSource : String

/-- Models the normalisation applied to each positional argument inside
`_memkey`: `(arg.__name__ if hasattr(arg, '__name') else '__nameless__')
if callable(arg) else arg`.  Note that the source tests the misspelled
attribute `'__name'`, exactly as written. -/
def memkey_normalize (arg : PyVal) : PyVal :=
  match arg with
  | PyVal.callable hasNameAttr nm _ =>
      PyVal.str (if hasNameAttr then nm else "__nameless__")
  | v => v

/-- Models `memoize._memkey`: the md5 hexdigest of the pickled
`[self._fnc.__name__, args, kwdict]` where only the positional `args`
have been normalised; `kwdict` is pickled as-is. -/
def memkey (fname : String) (args : List PyVal)
    (kwdict : List (String × PyVal)) : MemKey :=
  MemKey.hashed fname (args.map memkey_normalize) kwdict

/-- The key used by `_call_without_arguments`:
`self._memkey(*args, **kwargs) if self._key is None else self._key`. -/
def keyOf (m : memoize) (fname : String) (args : List PyVal)
    (kwargs : List (String × PyVal)) : MemKey :=
  match m.key with
  | Option.none => memkey fname args kwargs
  | Option.some s => MemKey.explicitKey s

/-- Models `memoize._init_cache`: empty the in-memory cache and create
the storage directory when persistence is on and it is absent. -/
def init_cache (m : memoize) (fs : FileSystem) : memoize × FileSystem :=
  ({ m with cache := [] },
   if m.persistent && !(dir_exists fs m.folder)
   then { fs with dirs := m.folder :: fs.dirs }
   else fs)

/-- Models `memoize.__init__` with explicit values for every keyword
(the Python defaults are `key=None, persistent=False, lazy=False,
debug=False, folder='.memoize'`). -/
def memoize_init (fnc : Option PyFunc) (key : Option String)
    (persistent lazyFlag debugFlag : Bool) (folder : String)
    (fs : FileSystem) : memoize × FileSystem :=
  init_cache
    { fnc := fnc, key := key, persistent := persistent, lazy := lazyFlag,
      debug := debugFlag, folder := folder, cache := [],
      latestSource := "" } fs

/-- Models `memoize.clear`: remove the whole storage directory when
persistent and present, then re-initialise the cache state. -/
def clear (m : memoize) (fs : FileSystem) : memoize × FileSystem :=
  init_cache m
    (if m.persistent && dir_exists fs m.folder
     then FileSystem.rmtree fs m.folder
     else fs)

/-- Models `memoize._call_with_arguments`: rebuild a wrapper of the same
class around `fnc`, carrying over every configuration option. -/
def call_with_arguments (m : memoize) (fnc : PyFunc) (fs : FileSystem) :
    memoize × FileSystem :=
  memoize_init (Option.some fnc) m.key m.persistent m.lazy m.debug
    m.folder fs

/-- Which bound method the `__call__` property returns. -/
inductive CallMode where
  | withArguments : CallMode
  | withoutArguments : CallMode
deriving DecidableEq

/-- Models the `__call__` property: `_call_with_arguments` when no
function is bound yet, `_call_without_arguments` otherwise. -/
def call_mode (m : memoize) : CallMode :=
  match m.fnc with
  | Option.none => CallMode.withArguments
  | Option.some _ => CallMode.withoutArguments

/-- Resolution of one lazy argument: `arg() if callable(arg) else arg`. -/
def lazy_resolve (v : PyVal) : PyVal :=
  if v.isCallable then v.call0 else v

/-- One pass over the positional arguments, mirroring the list
comprehension in `_lazy_evaluation`; the second component records, in
order, each callable that the comprehension invoked (each exactly once,
at its position). -/
def lazy_eval_list : List PyVal → List PyVal × List PyVal
  | [] => ([], [])
  | a :: rest =>
      let r := lazy_eval_list rest
      if a.isCallable then (a.call0 :: r.1, a :: r.2) else (a :: r.1, r.2)

/-- One pass over the keyword arguments, mirroring the dict comprehension
in `_lazy_evaluation`, with the same invocation trace. -/
def lazy_eval_kwargs : List (String × PyVal) → List (String × PyVal) × List PyVal
  | [] => ([], [])
  | e :: rest =>
      let r := lazy_eval_kwargs rest
      if e.2.isCallable then ((e.1, e.2.call0) :: r.1, e.2 :: r.2)
      else (e :: r.1, r.2)

/-- Models `memoize._lazy_evaluation`, returning the resolved positional
and keyword arguments plus the trace of invoked callables. -/
def lazy_evaluation (args : List PyVal) (kwargs : List (String × PyVal)) :
    List PyVal × List (String × PyVal) × List PyVal :=
  ((lazy_eval_list args).1, (lazy_eval_kwargs kwargs).1,
   (lazy_eval_list args).2 ++ (lazy_eval_kwargs kwargs).2)

/-- Models `memoize._read_cache`: memory first, then (when persistent)
disk; `self._latest_source` records the tier.  The Python pair
`(True, retval)` / `(False, None)` becomes `Option PyVal`. -/
def read_cache (m : memoize) (fs : FileSystem) (k : MemKey) :
    memoize × Option PyVal :=
  match alookup m.cache k with
  | Option.some p =>
      ({ m with latestSource := "memory" }, Option.some (pickle_loads p))
  | Option.none =>
      if m.persistent then
        match file_lookup fs m.folder k with
        | Option.some p =>
            ({ m with latestSource := "disk" },
             Option.some (pickle_loads p))
        | Option.none =>
            ({ m with latestSource := "function" }, Option.none)
      else ({ m with latestSource := "function" }, Option.none)

/-- What a call returns to the Python caller: the plain value, or in
debug mode the `(retval, memkey, self._latest_source)` triple. -/
inductive Returned where
  | plain : PyVal → Returned
  | debugTriple : PyVal → MemKey → String → Returned
deriving DecidableEq

/-- Models `memoize._write_cache`: store the pickled result in memory
unconditionally; when persistent and no file for the key exists yet,
also write it to disk; return the value (or the debug triple). -/
def write_cache (m : memoize) (fs : FileSystem) (k : MemKey)
    (retval : PyVal) : memoize × FileSystem × Returned :=
  ({ m with cache := (k, pickle_dumps retval) :: m.cache },
   if m.persistent && !(file_exists fs m.folder k)
   then { fs with files := ((m.folder, k), pickle_dumps retval) :: fs.files }
   else fs,
   if m.debug then Returned.debugTriple retval k m.latestSource
   else Returned.plain retval)

/-- The observable outcome of one invocation of the memoized wrapper:
the value returned to the caller, plus instrumentation (the raw return
value before debug wrapping, the key, the tier, whether the wrapped
function was invoked, which lazy callables were invoked) and the
post-state of the wrapper and the filesystem. -/
structure CallOutcome where
  returned : Returned
  rawRet : PyVal
  memkey : MemKey
  source : String
  fncInvoked : Bool
  thunks : List PyVal
  state : memoize
  fs : FileSystem

/-- Models `memoize._call_without_arguments` for a wrapper bound to `f`
(so `m.fnc = some f`; the function is passed separately so the outcome
can be computed). -/
def call_without_arguments (m : memoize) (f : PyFunc) (args : List PyVal)
    (kwargs : List (String × PyVal)) (fs : FileSystem) : CallOutcome :=
  let k := keyOf m f.name args kwargs
  let rc := read_cache m fs k
  let m1 := rc.1
  match rc.2 with
  | Option.some v =>
      { returned := if m1.debug then Returned.debugTriple v k m1.latestSource
                    else Returned.plain v,
        rawRet := v, memkey := k, source := m1.latestSource,
        fncInvoked := false, thunks := [], state := m1, fs := fs }
  | Option.none =>
      let le := if m1.lazy then lazy_evaluation args kwargs
                else (args, kwargs, [])
      let rv := f.run le.1 le.2.1
      let w := write_cache m1 fs k rv
      { returned := w.2.2, rawRet := rv, memkey := k,
        source := m1.latestSource, fncInvoked := true, thunks := le.2.2,
        state := w.1, fs := w.2.1 }

/-- The value a lookup of `k` would produce, as a function of the
in-memory cache, the persistence flag, the folder and the disk. -/
def cache_hit_val (m : memoize) (fs : FileSystem) (k : MemKey) : Option PyVal :=
  match alookup m.cache k with
  | Option.some p => Option.some (pickle_loads p)
  | Option.none =>
      if m.persistent then
        match file_lookup fs m.folder k with
        | Option.some p => Option.some (pickle_loads p)
        | Option.none => Option.none
      else Option.none

/-- The tier a lookup of `k` would record in `self._latest_source`. -/
def cache_tier (m : memoize) (fs : FileSystem) (k : MemKey) : String :=
  match alookup m.cache k with
  | Option.some _ => "memory"
  | Option.none =>
      if m.persistent then
        match file_lookup fs m.folder k with
        | Option.some _ => "disk"
        | Option.none => "function"
      else "function"

/-- Calling the wrapper `n + 1` times in a row with the same arguments,
threading the wrapper state and the filesystem; `repeat_calls … n` is the
outcome of the `(n+1)`-st call. -/
def repeat_calls (m : memoize) (f : PyFunc) (args : List PyVal)
    (kwargs : List (String × PyVal)) (fs : FileSystem) : Nat → CallOutcome
  | 0 => call_without_arguments m f args kwargs fs
  | n + 1 =>
      let o := repeat_calls m f args kwargs fs n
      call_without_arguments o.state f args kwargs o.fs

/-- A concrete wrapped function for the closed-instance theorems:
`add(a, b) = a + b` on integers. -/
def add_fn : PyFunc :=
  { name := "add",
    run := fun args _ =>
      match args with
      | [PyVal.int a, PyVal.int b] => PyVal.int (a + b)
      | _ => PyVal.pyNone }

/-- A concrete wrapped function returning its first positional argument. -/
def first_fn : PyFunc :=
  { name := "first",
    run := fun args _ =>
      match args with
      | a :: _ => a
      | [] => PyVal.pyNone }

/-- The empty filesystem. -/
def empty_fs : FileSystem := { dirs := [], files := [] }

/-- A fresh non-persistent wrapper around `add_fn`. -/
def plain_add : memoize :=
  { fnc := Option.some add_fn, key := Option.none, persistent := false,
    lazy := false, debug := false, folder := ".memoize", cache := [],
    latestSource := "" }

/-- A fresh wrapper around `add_fn` with the explicit key `"k"`. -/
def keyed_add : memoize :=
  { plain_add with key := Option.some "k" }

/-- A fresh lazy wrapper around `first_fn`. -/
def lazy_first : memoize :=
  { fnc := Option.some first_fn, key := Option.none, persistent := false,
    lazy := true, debug := false, folder := ".memoize", cache := [],
    latestSource := "" }

/-- The derived key of `add(1, 2)`. -/
def demo_key : MemKey := memkey "add" [PyVal.int 1, PyVal.int 2] []

/-- A filesystem already holding the cached result of `add(1, 2)`. -/
def disk_fs : FileSystem :=
  { dirs := [".memoize"],
    files := [((".memoize", demo_key), pickle_dumps (PyVal.int 3))] }

/-- A fresh persistent debug wrapper around `add_fn`. -/
def persistent_add : memoize :=
  { fnc := Option.some add_fn, key := Option.none, persistent := true,
    lazy := false, debug := true, folder := ".memoize", cache := [],
    latestSource := "" }

/-- The persistent wrapper with `add(1, 2)` already cached in memory. -/
def cached_add : memoize :=
  { persistent_add with cache := [(demo_key, pickle_dumps (PyVal.int 3))] }

/-- First run of the persistence scenario: a fresh persistent debug
wrapper around `add_fn` calls `add(1, 2)` starting from an empty
filesystem. -/
def scenario_o1 : CallOutcome :=
  call_without_arguments
    (memoize_init (Option.some add_fn) Option.none true false true
      ".memoize" empty_fs).1 add_fn [PyVal.int 1, PyVal.int 2] []
    (memoize_init (Option.some add_fn) Option.none true false true
      ".memoize" empty_fs).2

/-- Second run of the persistence scenario: a fresh wrapper pointed at
the storage folder left behind by the first run calls `add(1, 2)`
again. -/
def scenario_o2 : CallOutcome :=
  call_without_arguments
    (memoize_init (Option.some add_fn) Option.none true false true
      ".memoize" scenario_o1.fs).1 add_fn [PyVal.int 1, PyVal.int 2] []
    (memoize_init (Option.some add_fn) Option.none true false true
      ".memoize" scenario_o1.fs).2

theorem alookup_cons_self {α β : Type} [DecidableEq α] (l : List (α × β))
    (k : α) (v : β) : alookup ((k, v) :: l) k = Option.some v := by
  simp [alookup]

theorem alookup_mem {α β : Type} [DecidableEq α] (l : List (α × β))
    (k : α) (v : β) (h : alookup l k = Option.some v) : (k, v) ∈ l := by
  induction l with
  | nil => simp [alookup] at h
  | cons e t ih =>
      cases e with
      | mk a b =>
          by_cases he : a = k
          · simp [alookup, he] at h
            subst he
            subst h
            exact List.mem_cons_self _ _
          · simp [alookup, he] at h
            exact List.mem_cons_of_mem _ (ih h)

theorem read_cache_eq (m : memoize) (fs : FileSystem) (k : MemKey) :
    read_cache m fs k =
      ({ m with latestSource := cache_tier m fs k }, cache_hit_val m fs k) := by
  unfold read_cache cache_tier cache_hit_val
  cases alookup m.cache k with
  | some p => rfl
  | none =>
      cases hp : m.persistent with
      | false => simp
      | true =>
          simp only [if_true]
          cases file_lookup fs m.folder k with
          | some p => rfl
          | none => rfl

theorem cache_tier_of_none (m : memoize) (fs : FileSystem) (k : MemKey)
    (h : cache_hit_val m fs k = Option.none) :
    cache_tier m fs k = "function" := by
  unfold cache_hit_val at h
  unfold cache_tier
  cases ha : alookup m.cache k with
  | some p => simp [ha] at h
  | none =>
      simp only [ha]
      cases hp : m.persistent with
      | false => simp
      | true =>
          simp only [if_true]
          simp [ha, hp] at h
          cases hf : file_lookup fs m.folder k with
          | some p => simp [hf] at h
          | none => rfl

theorem call_hit (m : memoize) (f : PyFunc) (args : List PyVal)
    (kwargs : List (String × PyVal)) (fs : FileSystem) (v : PyVal)
    (h : cache_hit_val m fs (keyOf m f.name args kwargs) = Option.some v) :
    call_without_arguments m f args kwargs fs =
      { returned := if m.debug then
            Returned.debugTriple v (keyOf m f.name args kwargs)
              (cache_tier m fs (keyOf m f.name args kwargs))
          else Returned.plain v,
        rawRet := v,
        memkey := keyOf m f.name args kwargs,
        source := cache_tier m fs (keyOf m f.name args kwargs),
        fncInvoked := false,
        thunks := [],
        state := { m with
          latestSource := cache_tier m fs (keyOf m f.name args kwargs) },
        fs := fs } := by
  simp only [call_without_arguments, read_cache_eq, h]

theorem call_miss (m : memoize) (f : PyFunc) (args : List PyVal)
    (kwargs : List (String × PyVal)) (fs : FileSystem)
    (h : cache_hit_val m fs (keyOf m f.name args kwargs) = Option.none) :
    call_without_arguments m f args kwargs fs =
      (let k := keyOf m f.name args kwargs
       let le := if m.lazy then lazy_evaluation args kwargs
                 else (args, kwargs, [])
       let rv := f.run le.1 le.2.1
       { returned := if m.debug then Returned.debugTriple rv k "function"
                     else Returned.plain rv,
         rawRet := rv,
         memkey := k,
         source := "function",
         fncInvoked := true,
         thunks := le.2.2,
         state := { m with cache := (k, pickle_dumps rv) :: m.cache,
                           latestSource := "function" },
         fs := if m.persistent && !(file_exists fs m.folder k)
               then { fs with
                      files := ((m.folder, k), pickle_dumps rv) :: fs.files }
               else fs }) := by
  simp only [call_without_arguments, read_cache_eq, h,
    cache_tier_of_none m fs _ h, write_cache]

theorem keyOf_key_congr (m m' : memoize) (h : m.key = m'.key)
    (fname : String) (args : List PyVal) (kwargs : List (String × PyVal)) :
    keyOf m fname args kwargs = keyOf m' fname args kwargs := by
  unfold keyOf
  rw [h]

theorem call_state_key (m : memoize) (f : PyFunc) (args : List PyVal)
    (kwargs : List (String × PyVal)) (fs : FileSystem) :
    (call_without_arguments m f args kwargs fs).state.key = m.key := by
  rcases hv : cache_hit_val m fs (keyOf m f.name args kwargs) with _ | v
  · rw [call_miss m f args kwargs fs hv]
  · rw [call_hit m f args kwargs fs v hv]

theorem call_caches_result (m : memoize) (f : PyFunc) (args : List PyVal)
    (kwargs : List (String × PyVal)) (fs : FileSystem) :
    cache_hit_val (call_without_arguments m f args kwargs fs).state
        (call_without_arguments m f args kwargs fs).fs
        (keyOf (call_without_arguments m f args kwargs fs).state
          f.name args kwargs) =
      Option.some (call_without_arguments m f args kwargs fs).rawRet := by
  rcases hv : cache_hit_val m fs (keyOf m f.name args kwargs) with _ | v
  · rw [call_miss m f args kwargs fs hv]
    simp [cache_hit_val, keyOf, alookup, pickle_loads, pickle_dumps]
  · rw [call_hit m f args kwargs fs v hv]
    simpa [cache_hit_val, keyOf] using hv

theorem second_call_same_key (m : memoize) (f : PyFunc)
    (a1 : List PyVal) (k1 : List (String × PyVal))
    (a2 : List PyVal) (k2 : List (String × PyVal)) (fs : FileSystem)
    (hk : keyOf m f.name a2 k2 = keyOf m f.name a1 k1) :
    (call_without_arguments (call_without_arguments m f a1 k1 fs).state f a2
        k2 (call_without_arguments m f a1 k1 fs).fs).fncInvoked = false ∧
    (call_without_arguments (call_without_arguments m f a1 k1 fs).state f a2
        k2 (call_without_arguments m f a1 k1 fs).fs).rawRet =
      (call_without_arguments m f a1 k1 fs).rawRet := by
  have hkey2 :
      keyOf (call_without_arguments m f a1 k1 fs).state f.name a2 k2 =
        keyOf (call_without_arguments m f a1 k1 fs).state f.name a1 k1 := by
    rw [keyOf_key_congr _ m (call_state_key m f a1 k1 fs) f.name a2 k2,
        keyOf_key_congr _ m (call_state_key m f a1 k1 fs) f.name a1 k1, hk]
  have hc2 :
      cache_hit_val (call_without_arguments m f a1 k1 fs).state
          (call_without_arguments m f a1 k1 fs).fs
          (keyOf (call_without_arguments m f a1 k1 fs).state f.name a2 k2) =
        Option.some (call_without_arguments m f a1 k1 fs).rawRet := by
    rw [hkey2]
    exact call_caches_result m f a1 k1 fs
  rw [call_hit _ f a2 k2 _ _ hc2]
  exact ⟨rfl, rfl⟩

theorem lazy_eval_list_spec (l : List PyVal) :
    lazy_eval_list l = (l.map lazy_resolve, l.filter PyVal.isCallable) := by
  induction l with
  | nil => rfl
  | cons a t ih =>
      unfold lazy_eval_list
      rw [ih]
      by_cases hc : a.isCallable
      · simp [hc, lazy_resolve, List.filter_cons]
      · simp [hc, lazy_resolve, List.filter_cons]

theorem lazy_eval_kwargs_spec (l : List (String × PyVal)) :
    lazy_eval_kwargs l =
      (l.map (fun e => (e.1, lazy_resolve e.2)),
       (l.map Prod.snd).filter PyVal.isCallable) := by
  induction l with
  | nil => rfl
  | cons e t ih =>
      unfold lazy_eval_kwargs
      rw [ih]
      by_cases hc : e.2.isCallable
      · simp [hc, lazy_resolve, List.filter_cons]
      · simp [hc, lazy_resolve, List.filter_cons]

theorem memoize_init_fst (fnc : Option PyFunc) (key : Option String)
    (persistent lazyFlag debugFlag : Bool) (folder : String)
    (fs : FileSystem) :
    (memoize_init fnc key persistent lazyFlag debugFlag folder fs).1 =
      { fnc := fnc, key := key, persistent := persistent, lazy := lazyFlag,
        debug := debugFlag, folder := folder, cache := [],
        latestSource := "" } := rfl

theorem memoize_init_fs_files (fnc : Option PyFunc) (key : Option String)
    (persistent lazyFlag debugFlag : Bool) (folder : String)
    (fs : FileSystem) :
    (memoize_init fnc key persistent lazyFlag debugFlag folder fs).2.files =
      fs.files := by
  unfold memoize_init init_cache
  split <;> rfl

theorem init_cache_fs_files (m : memoize) (fs : FileSystem) :
    (init_cache m fs).2.files = fs.files := by
  unfold init_cache
  split <;> rfl

theorem dir_exists_rmtree (fs : FileSystem) (folder : String) :
    dir_exists (FileSystem.rmtree fs folder) folder = false := by
  simp [dir_exists, FileSystem.rmtree, List.mem_filter]

theorem alookup_filter_of_ne {α β : Type} [DecidableEq α]
    (l : List (α × β)) (p : α × β → Bool) (k : α)
    (hk : ∀ v, p (k, v) = false) :
    alookup (l.filter p) k = Option.none := by
  induction l with
  | nil => rfl
  | cons e t ih =>
      cases e with
      | mk a b =>
          by_cases hp : p (a, b)
          · rw [List.filter_cons_of_pos hp]
            have ha : ¬ a = k := by
              intro hak
              subst hak
              rw [hk b] at hp
              exact Bool.false_ne_true hp
            simpa [alookup, ha] using ih
          · rw [List.filter_cons_of_neg hp]
            exact ih

theorem file_lookup_rmtree (fs : FileSystem) (folder : String) (k : MemKey) :
    file_lookup (FileSystem.rmtree fs folder) folder k = Option.none := by
  unfold file_lookup FileSystem.rmtree
  exact alookup_filter_of_ne _ _ _ (fun v => by simp)

theorem file_lookup_of_wf_no_dir (fs : FileSystem) (folder : String)
    (k : MemKey) (hwf : FileSystem.WF fs) (hd : ¬ folder ∈ fs.dirs) :
    file_lookup fs folder k = Option.none := by
  cases hfl : file_lookup fs folder k with
  | none => rfl
  | some p =>
      exact absurd (hwf _ (alookup_mem _ _ _ hfl)) hd

/-- C1: for a wrapper bound to a function, if the first call misses the
cache it invokes the wrapped function, and every subsequent call with the
same arguments does not invoke it again and returns the memoized value
(the raw return value of the first call). -/
theorem C1_memoize_at_most_once (m : memoize) (f : PyFunc)
    (args : List PyVal) (kwargs : List (String × PyVal)) (fs : FileSystem) :
    (cache_hit_val m fs (keyOf m f.name args kwargs) = Option.none →
      (repeat_calls m f args kwargs fs 0).fncInvoked = true) ∧
    (∀ n : Nat,
      (repeat_calls m f args kwargs fs (n + 1)).fncInvoked = false ∧
      (repeat_calls m f args kwargs fs (n + 1)).rawRet =
        (repeat_calls m f args kwargs fs 0).rawRet) := by
  have step : ∀ n : Nat,
      (repeat_calls m f args kwargs fs (n + 1)).fncInvoked = false ∧
      (repeat_calls m f args kwargs fs (n + 1)).rawRet =
        (repeat_calls m f args kwargs fs n).rawRet := by
    intro n
    have hc : cache_hit_val (repeat_calls m f args kwargs fs n).state
        (repeat_calls m f args kwargs fs n).fs
        (keyOf (repeat_calls m f args kwargs fs n).state f.name args
          kwargs) =
        Option.some (repeat_calls m f args kwargs fs n).rawRet := by
      cases n with
      | zero => exact call_caches_result m f args kwargs fs
      | succ j =>
          exact call_caches_result (repeat_calls m f args kwargs fs j).state
            f args kwargs (repeat_calls m f args kwargs fs j).fs
    have hcall := call_hit (repeat_calls m f args kwargs fs n).state f args
      kwargs (repeat_calls m f args kwargs fs n).fs
      (repeat_calls m f args kwargs fs n).rawRet hc
    constructor
    · show (call_without_arguments (repeat_calls m f args kwargs fs n).state
          f args kwargs
          (repeat_calls m f args kwargs fs n).fs).fncInvoked = false
      rw [hcall]
    · show (call_without_arguments (repeat_calls m f args kwargs fs n).state
          f args kwargs (repeat_calls m f args kwargs fs n).fs).rawRet =
          (repeat_calls m f args kwargs fs n).rawRet
      rw [hcall]
  constructor
  · intro h
    show (call_without_arguments m f args kwargs fs).fncInvoked = true
    rw [call_miss m f args kwargs fs h]
  · intro n
    refine ⟨(step n).1, ?_⟩
    induction n with
    | zero => exact (step 0).2
    | succ j ih => exact ((step (j + 1)).2).trans ih

/-- Witness for C1: the fresh non-persistent `add` wrapper misses on the
first call of `add(1, 2)`, invokes the function once, and the second call
does not invoke it and returns the same value. -/
theorem C1_memoize_at_most_once_witness :
    cache_hit_val plain_add empty_fs
        (keyOf plain_add "add" [PyVal.int 1, PyVal.int 2] []) =
      Option.none ∧
    (repeat_calls plain_add add_fn [PyVal.int 1, PyVal.int 2] [] empty_fs
        0).fncInvoked = true ∧
    (repeat_calls plain_add add_fn [PyVal.int 1, PyVal.int 2] [] empty_fs
        1).fncInvoked = false ∧
    (repeat_calls plain_add add_fn [PyVal.int 1, PyVal.int 2] [] empty_fs
        1).rawRet =
      (repeat_calls plain_add add_fn [PyVal.int 1, PyVal.int 2] [] empty_fs
        0).rawRet := by
  refine ⟨rfl, ?_, ?_, ?_⟩
  · exact (C1_memoize_at_most_once plain_add add_fn
      [PyVal.int 1, PyVal.int 2] [] empty_fs).1 rfl
  · exact ((C1_memoize_at_most_once plain_add add_fn
      [PyVal.int 1, PyVal.int 2] [] empty_fs).2 0).1
  · exact ((C1_memoize_at_most_once plain_add add_fn
      [PyVal.int 1, PyVal.int 2] [] empty_fs).2 0).2

/-- C2 (code bug): `_memkey` tests `hasattr(arg, '__name')` — the
misspelled attribute — before reading `arg.__name__`, so an ordinary
named callable argument (which defines `__name__` but not `__name`, here
a callable named `"max"` with the misspelled-attribute flag `false`) is
normalized to the `'__nameless__'` sentinel instead of its name; and a
callable passed as a keyword argument is not normalized at all. -/
theorem C2_memkey_callable_name_dropped :
    memkey "f" [PyVal.callable false "max" PyVal.pyNone] [] =
      MemKey.hashed "f" [PyVal.str "__nameless__"] [] ∧
    memkey "f" [] [("g", PyVal.callable false "max" PyVal.pyNone)] =
      MemKey.hashed "f" [] [("g", PyVal.callable false "max" PyVal.pyNone)] ∧
    PyVal.isCallable (PyVal.callable false "max" PyVal.pyNone) = true :=
  ⟨rfl, rfl, rfl⟩

/-- Counterexample to C3 as stated: two calls that differ in an argument
value (two distinct ordinary callables, named `"min"` and `"max"`) derive
the same cache key, because `_memkey` collapses every ordinary callable
argument to the `'__nameless__'` sentinel. -/
theorem C3_distinct_args_same_key :
    memkey "f" [PyVal.callable false "min" (PyVal.int 0)] [] =
      memkey "f" [PyVal.callable false "max" (PyVal.int 1)] [] ∧
    PyVal.callable false "min" (PyVal.int 0) ≠
      PyVal.callable false "max" (PyVal.int 1) :=
  ⟨rfl, by decide⟩

/-- C3 (amended): with the digest idealised as injective, two derived
keys are equal exactly when the wrapped-function names agree, the
positional arguments agree after `_memkey`'s normalization, and the
keyword arguments agree; in particular identical calls always derive
identical keys, and calls whose normalized argument structures differ
derive different keys. -/
theorem C3_key_equality_characterization (n n' : String)
    (a a' : List PyVal) (k k' : List (String × PyVal)) :
    memkey n a k = memkey n' a' k' ↔
      (n = n' ∧ a.map memkey_normalize = a'.map memkey_normalize ∧
       k = k') := by
  simp [memkey]

/-- C7: a wrapper constructed without a target callable dispatches to
`_call_with_arguments`, and applying it to a callable yields exactly the
wrapper (and filesystem effect) of a direct construction with that
callable and the same configuration. -/
theorem C7_decorator_with_arguments_equiv (key : Option String)
    (persistent lazyFlag debugFlag : Bool) (folder : String) (f : PyFunc)
    (fs0 fs : FileSystem) :
    call_mode (memoize_init Option.none key persistent lazyFlag debugFlag
        folder fs0).1 = CallMode.withArguments ∧
    call_with_arguments
        (memoize_init Option.none key persistent lazyFlag debugFlag folder
          fs0).1 f fs =
      memoize_init (Option.some f) key persistent lazyFlag debugFlag folder
        fs :=
  ⟨rfl, rfl⟩

/-- C8: with an explicit key configured, a second call with a different
argument set silently returns the first call's cached raw value and does
not invoke the wrapped function. -/
theorem C8_explicit_key_silent_reuse (m : memoize) (f : PyFunc)
    (s : String) (a1 a2 : List PyVal) (k1 k2 : List (String × PyVal))
    (fs : FileSystem) (hkey : m.key = Option.some s) :
    (call_without_arguments (call_without_arguments m f a1 k1 fs).state f
        a2 k2 (call_without_arguments m f a1 k1 fs).fs).fncInvoked =
      false ∧
    (call_without_arguments (call_without_arguments m f a1 k1 fs).state f
        a2 k2 (call_without_arguments m f a1 k1 fs).fs).rawRet =
      (call_without_arguments m f a1 k1 fs).rawRet :=
  second_call_same_key m f a1 k1 a2 k2 fs (by unfold keyOf; rw [hkey])

/-- Witness for C8: the wrapper with explicit key `"k"` called as
`add(1, 2)` and then `add(3, 4)` returns the first cached value for the
second call without invoking `add`. -/
theorem C8_explicit_key_silent_reuse_witness :
    keyed_add.key = Option.some "k" ∧
    (call_without_arguments
        (call_without_arguments keyed_add add_fn [PyVal.int 1, PyVal.int 2]
          [] empty_fs).state add_fn [PyVal.int 3, PyVal.int 4] []
        (call_without_arguments keyed_add add_fn [PyVal.int 1, PyVal.int 2]
          [] empty_fs).fs).fncInvoked = false ∧
    (call_without_arguments
        (call_without_arguments keyed_add add_fn [PyVal.int 1, PyVal.int 2]
          [] empty_fs).state add_fn [PyVal.int 3, PyVal.int 4] []
        (call_without_arguments keyed_add add_fn [PyVal.int 1, PyVal.int 2]
          [] empty_fs).fs).rawRet =
      (call_without_arguments keyed_add add_fn [PyVal.int 1, PyVal.int 2]
        [] empty_fs).rawRet := by
  refine ⟨rfl, ?_, ?_⟩
  · exact (C8_explicit_key_silent_reuse keyed_add add_fn "k"
      [PyVal.int 1, PyVal.int 2] [PyVal.int 3, PyVal.int 4] [] [] empty_fs
      rfl).1
  · exact (C8_explicit_key_silent_reuse keyed_add add_fn "k"
      [PyVal.int 1, PyVal.int 2] [PyVal.int 3, PyVal.int 4] [] [] empty_fs
      rfl).2

theorem cache_hit_val_latestSource (m : memoize) (l : String)
    (fs : FileSystem) (k : MemKey) :
    cache_hit_val { m with latestSource := l } fs k =
      cache_hit_val m fs k := rfl

theorem cache_tier_latestSource (m : memoize) (l : String)
    (fs : FileSystem) (k : MemKey) :
    cache_tier { m with latestSource := l } fs k = cache_tier m fs k := rfl

theorem keyOf_latestSource (m : memoize) (l : String) (fname : String)
    (args : List PyVal) (kwargs : List (String × PyVal)) :
    keyOf { m with latestSource := l } fname args kwargs =
      keyOf m fname args kwargs := rfl

/-- C5: on a cache miss, the result is stored in the in-memory mapping
unconditionally; the key's file is written only when persistence is on
and no file for the key exists (an existing file is left untouched, and
nothing is written when persistence is off); the call reports tier
`"function"` and returns the value, or in debug mode the
`(value, key, "function")` triple. -/
theorem C5_write_back (m : memoize) (f : PyFunc) (args : List PyVal)
    (kwargs : List (String × PyVal)) (fs : FileSystem)
    (hmiss : cache_hit_val m fs (keyOf m f.name args kwargs) =
      Option.none) :
    (call_without_arguments m f args kwargs fs).state.cache =
      (keyOf m f.name args kwargs,
       pickle_dumps (call_without_arguments m f args kwargs fs).rawRet) ::
        m.cache ∧
    (m.persistent = true →
      file_exists fs m.folder (keyOf m f.name args kwargs) = false →
      (call_without_arguments m f args kwargs fs).fs =
        { fs with files := ((m.folder, keyOf m f.name args kwargs),
            pickle_dumps
              (call_without_arguments m f args kwargs fs).rawRet) ::
              fs.files }) ∧
    (file_exists fs m.folder (keyOf m f.name args kwargs) = true →
      (call_without_arguments m f args kwargs fs).fs = fs) ∧
    (m.persistent = false →
      (call_without_arguments m f args kwargs fs).fs = fs) ∧
    (call_without_arguments m f args kwargs fs).source = "function" ∧
    (call_without_arguments m f args kwargs fs).returned =
      (if m.debug then
         Returned.debugTriple
           (call_without_arguments m f args kwargs fs).rawRet
           (keyOf m f.name args kwargs) "function"
       else
         Returned.plain
           (call_without_arguments m f args kwargs fs).rawRet) := by
  rw [call_miss m f args kwargs fs hmiss]
  refine ⟨rfl, ?_, ?_, ?_, rfl, rfl⟩
  · intro h1 h2
    simp [h1, h2]
  · intro h2
    simp [h2]
  · intro h1
    simp [h1]

/-- Witness for C5: the first call of `add(1, 2)` on the fresh
non-persistent wrapper stores the pickled result in memory under the
derived key and reports tier `"function"`. -/
theorem C5_write_back_witness :
    cache_hit_val plain_add empty_fs
        (keyOf plain_add "add" [PyVal.int 1, PyVal.int 2] []) =
      Option.none ∧
    (call_without_arguments plain_add add_fn [PyVal.int 1, PyVal.int 2] []
        empty_fs).state.cache =
      (keyOf plain_add "add" [PyVal.int 1, PyVal.int 2] [],
       pickle_dumps (call_without_arguments plain_add add_fn
          [PyVal.int 1, PyVal.int 2] [] empty_fs).rawRet) ::
        plain_add.cache ∧
    (call_without_arguments plain_add add_fn [PyVal.int 1, PyVal.int 2] []
        empty_fs).source = "function" := by
  refine ⟨rfl, ?_, ?_⟩
  · exact (C5_write_back plain_add add_fn [PyVal.int 1, PyVal.int 2] []
      empty_fs rfl).1
  · exact (C5_write_back plain_add add_fn [PyVal.int 1, PyVal.int 2] []
      empty_fs rfl).2.2.2.2.1

/-- C9: with lazy evaluation enabled, on a cache miss every callable
positional or keyword argument is invoked (each exactly once — the
invocation trace lists exactly the callable arguments in order) and its
return value is what the wrapped function receives, while non-callable
arguments pass through unchanged; on a cache hit no lazy callable is
invoked at all. -/
theorem C9_lazy_evaluation_contract (m : memoize) (f : PyFunc)
    (args : List PyVal) (kwargs : List (String × PyVal)) (fs : FileSystem)
    (hlazy : m.lazy = true) :
    (cache_hit_val m fs (keyOf m f.name args kwargs) = Option.none →
      (call_without_arguments m f args kwargs fs).rawRet =
        f.run (args.map lazy_resolve)
          (kwargs.map (fun e => (e.1, lazy_resolve e.2))) ∧
      (call_without_arguments m f args kwargs fs).thunks =
        args.filter PyVal.isCallable ++
          (kwargs.map Prod.snd).filter PyVal.isCallable ∧
      (call_without_arguments m f args kwargs fs).fncInvoked = true) ∧
    (∀ v,
      cache_hit_val m fs (keyOf m f.name args kwargs) = Option.some v →
      (call_without_arguments m f args kwargs fs).thunks = [] ∧
      (call_without_arguments m f args kwargs fs).fncInvoked = false) := by
  constructor
  · intro h
    rw [call_miss m f args kwargs fs h]
    simp [hlazy, lazy_evaluation, lazy_eval_list_spec, lazy_eval_kwargs_spec]
  · intro v h
    rw [call_hit m f args kwargs fs v h]
    exact ⟨rfl, rfl⟩

/-- Witness for C9: a lazy wrapper called with a callable argument whose
zero-argument invocation returns `7`; the wrapped function receives `7`,
and the trace shows the callable was invoked once. -/
theorem C9_lazy_evaluation_contract_witness :
    lazy_first.lazy = true ∧
    cache_hit_val lazy_first empty_fs
        (keyOf lazy_first "first"
          [PyVal.callable false "th" (PyVal.int 7), PyVal.int 5] []) =
      Option.none ∧
    (call_without_arguments lazy_first first_fn
        [PyVal.callable false "th" (PyVal.int 7), PyVal.int 5] []
        empty_fs).rawRet = PyVal.int 7 ∧
    (call_without_arguments lazy_first first_fn
        [PyVal.callable false "th" (PyVal.int 7), PyVal.int 5] []
        empty_fs).thunks = [PyVal.callable false "th" (PyVal.int 7)] := by
  refine ⟨rfl, rfl, ?_, ?_⟩
  · exact ((C9_lazy_evaluation_contract lazy_first first_fn
      [PyVal.callable false "th" (PyVal.int 7), PyVal.int 5] [] empty_fs
      rfl).1 rfl).1.trans rfl
  · exact ((C9_lazy_evaluation_contract lazy_first first_fn
      [PyVal.callable false "th" (PyVal.int 7), PyVal.int 5] [] empty_fs
      rfl).1 rfl).2.1.trans rfl

/-- C10: a lookup satisfied by the disk tier does not touch the
in-memory mapping: the call returns the value loaded from the file, the
wrapper's cache and the filesystem are unchanged, and a later identical
call on the same wrapper reads from disk again (tier stays `"disk"`,
still without touching the in-memory mapping or invoking the wrapped
function). -/
theorem C10_disk_hit_no_writeback (m : memoize) (f : PyFunc)
    (args : List PyVal) (kwargs : List (String × PyVal)) (fs : FileSystem)
    (p : Pickled)
    (hmem : alookup m.cache (keyOf m f.name args kwargs) = Option.none)
    (hper : m.persistent = true)
    (hfile : file_lookup fs m.folder (keyOf m f.name args kwargs) =
      Option.some p) :
    (call_without_arguments m f args kwargs fs).state.cache = m.cache ∧
    (call_without_arguments m f args kwargs fs).fs = fs ∧
    (call_without_arguments m f args kwargs fs).source = "disk" ∧
    (call_without_arguments m f args kwargs fs).rawRet = pickle_loads p ∧
    (call_without_arguments m f args kwargs fs).fncInvoked = false ∧
    (call_without_arguments
        (call_without_arguments m f args kwargs fs).state f args kwargs
        (call_without_arguments m f args kwargs fs).fs).source = "disk" ∧
    (call_without_arguments
        (call_without_arguments m f args kwargs fs).state f args kwargs
        (call_without_arguments m f args kwargs fs).fs).fncInvoked =
      false ∧
    (call_without_arguments
        (call_without_arguments m f args kwargs fs).state f args kwargs
        (call_without_arguments m f args kwargs fs).fs).state.cache =
      m.cache := by
  have hv : cache_hit_val m fs (keyOf m f.name args kwargs) =
      Option.some (pickle_loads p) := by
    simp [cache_hit_val, hmem, hper, hfile]
  have ht : cache_tier m fs (keyOf m f.name args kwargs) = "disk" := by
    simp [cache_tier, hmem, hper, hfile]
  have h1 := call_hit m f args kwargs fs (pickle_loads p) hv
  have h2 := call_hit
    { m with latestSource := cache_tier m fs (keyOf m f.name args kwargs) }
    f args kwargs fs (pickle_loads p)
    (by rw [keyOf_latestSource, cache_hit_val_latestSource]; exact hv)
  rw [h1]
  dsimp only
  rw [h2]
  dsimp only
  exact ⟨rfl, rfl, ht, rfl, rfl, ht, rfl, rfl⟩

/-- Witness for C10: the fresh persistent wrapper pointed at a folder
already holding the cached `add(1, 2)` answers from disk, and answers
from disk again on the second call. -/
theorem C10_disk_hit_no_writeback_witness :
    alookup persistent_add.cache
        (keyOf persistent_add "add" [PyVal.int 1, PyVal.int 2] []) =
      Option.none ∧
    persistent_add.persistent = true ∧
    file_lookup disk_fs ".memoize"
        (keyOf persistent_add "add" [PyVal.int 1, PyVal.int 2] []) =
      Option.some (pickle_dumps (PyVal.int 3)) ∧
    (call_without_arguments persistent_add add_fn
        [PyVal.int 1, PyVal.int 2] [] disk_fs).source = "disk" ∧
    (call_without_arguments persistent_add add_fn
        [PyVal.int 1, PyVal.int 2] [] disk_fs).fncInvoked = false ∧
    (call_without_arguments
        (call_without_arguments persistent_add add_fn
          [PyVal.int 1, PyVal.int 2] [] disk_fs).state add_fn
        [PyVal.int 1, PyVal.int 2] []
        (call_without_arguments persistent_add add_fn
          [PyVal.int 1, PyVal.int 2] [] disk_fs).fs).source = "disk" := by
  have h := C10_disk_hit_no_writeback persistent_add add_fn
    [PyVal.int 1, PyVal.int 2] [] disk_fs (pickle_dumps (PyVal.int 3))
    rfl rfl rfl
  exact ⟨rfl, rfl, rfl, h.2.2.1, h.2.2.2.2.1, h.2.2.2.2.2.1⟩

theorem clear_fst (m : memoize) (fs : FileSystem) :
    (clear m fs).1 = { m with cache := [] } := rfl

theorem clear_fs_files (m : memoize) (fs : FileSystem) :
    (clear m fs).2.files =
      (if m.persistent && dir_exists fs m.folder
       then FileSystem.rmtree fs m.folder else fs).files := by
  unfold clear
  exact init_cache_fs_files _ _

/-- C6: `clear()` resets the in-memory cache to empty; when persistence
is on it leaves the storage directory existing (recreated) and with no
file in it; it is total (no error when nothing existed); and a call with
previously-cached arguments after `clear()` invokes the wrapped function
again with tier `"function"`. -/
theorem C6_clear_contract (m : memoize) (f : PyFunc) (args : List PyVal)
    (kwargs : List (String × PyVal)) (fs : FileSystem)
    (hwf : FileSystem.WF fs) :
    (clear m fs).1.cache = [] ∧
    (m.persistent = true → m.folder ∈ (clear m fs).2.dirs) ∧
    (m.persistent = true →
      ∀ k, file_lookup (clear m fs).2 m.folder k = Option.none) ∧
    (call_without_arguments (clear m fs).1 f args kwargs
        (clear m fs).2).fncInvoked = true ∧
    (call_without_arguments (clear m fs).1 f args kwargs
        (clear m fs).2).source = "function" := by
  have hfiles : m.persistent = true →
      ∀ k, file_lookup (clear m fs).2 m.folder k = Option.none := by
    intro hper k
    have h2 : file_lookup (clear m fs).2 m.folder k =
        file_lookup (if m.persistent && dir_exists fs m.folder
          then FileSystem.rmtree fs m.folder else fs) m.folder k := by
      unfold file_lookup
      rw [clear_fs_files]
    rw [h2]
    cases hd : dir_exists fs m.folder with
    | true => simp [hper, hd, file_lookup_rmtree]
    | false =>
        simp only [hper, hd, Bool.and_false, if_neg, Bool.false_eq_true,
          not_false_eq_true]
        exact file_lookup_of_wf_no_dir fs m.folder k hwf
          (by simpa [dir_exists] using hd)
  have hdirs : m.persistent = true → m.folder ∈ (clear m fs).2.dirs := by
    intro hper
    unfold clear init_cache
    cases hd : dir_exists fs m.folder with
    | true => simp [hper, hd, dir_exists_rmtree]
    | false => simp [hper, hd]
  have hv : cache_hit_val (clear m fs).1 (clear m fs).2
      (keyOf (clear m fs).1 f.name args kwargs) = Option.none := by
    cases hper : m.persistent with
    | false =>
        have hp : (clear m fs).1.persistent = false := hper
        simp [cache_hit_val, alookup, hp,
          show (clear m fs).1.cache = [] from rfl]
    | true =>
        have hp : (clear m fs).1.persistent = true := hper
        simp [cache_hit_val, alookup, hp,
          show (clear m fs).1.cache = [] from rfl,
          show (clear m fs).1.folder = m.folder from rfl, hfiles hper]
  have hcall := call_miss (clear m fs).1 f args kwargs (clear m fs).2 hv
  refine ⟨rfl, hdirs, hfiles, ?_, ?_⟩
  · rw [hcall]
  · rw [hcall]

/-- Witness for C6: clearing the persistent wrapper that has `add(1, 2)`
cached both in memory and on disk empties the cache, and the next
`add(1, 2)` call invokes the function again with tier `"function"`. -/
theorem C6_clear_contract_witness :
    FileSystem.WF disk_fs ∧
    (clear cached_add disk_fs).1.cache = [] ∧
    (call_without_arguments (clear cached_add disk_fs).1 add_fn
        [PyVal.int 1, PyVal.int 2] []
        (clear cached_add disk_fs).2).fncInvoked = true ∧
    (call_without_arguments (clear cached_add disk_fs).1 add_fn
        [PyVal.int 1, PyVal.int 2] []
        (clear cached_add disk_fs).2).source = "function" := by
  have hwf : FileSystem.WF disk_fs := by
    show ∀ e ∈ disk_fs.files, e.1.1 ∈ disk_fs.dirs
    decide
  have h := C6_clear_contract cached_add add_fn [PyVal.int 1, PyVal.int 2]
    [] disk_fs hwf
  exact ⟨hwf, h.1, h.2.2.2.1, h.2.2.2.2⟩

/-- C4: a lookup checks the in-memory mapping first (tier `"memory"`,
regardless of the disk); only when the key is absent there and
persistence is on does it consult the key's file (tier `"disk"`);
otherwise the lookup fails with tier `"function"`.  Moreover, in the
end-to-end scenario, after a persistent wrapper caches a result, a fresh
wrapper instance pointed at the same storage folder answers the same
call from disk, without invoking the wrapped function and reporting tier
`"disk"`. -/
theorem C4_lookup_tier_order :
    (∀ (m : memoize) (fs : FileSystem) (k : MemKey) (p : Pickled),
      alookup m.cache k = Option.some p →
      read_cache m fs k =
        ({ m with latestSource := "memory" },
         Option.some (pickle_loads p))) ∧
    (∀ (m : memoize) (fs : FileSystem) (k : MemKey) (p : Pickled),
      alookup m.cache k = Option.none → m.persistent = true →
      file_lookup fs m.folder k = Option.some p →
      read_cache m fs k =
        ({ m with latestSource := "disk" },
         Option.some (pickle_loads p))) ∧
    (∀ (m : memoize) (fs : FileSystem) (k : MemKey),
      alookup m.cache k = Option.none →
      (m.persistent = false ∨ file_lookup fs m.folder k = Option.none) →
      read_cache m fs k =
        ({ m with latestSource := "function" }, Option.none)) ∧
    (∀ (f : PyFunc) (args : List PyVal) (kwargs : List (String × PyVal))
       (folder : String) (fs0 : FileSystem),
      file_lookup fs0 folder (memkey f.name args kwargs) = Option.none →
      ∀ (m1 : memoize) (fs1 : FileSystem) (o1 : CallOutcome)
        (m2 : memoize) (fs2 : FileSystem) (o2 : CallOutcome),
      m1 = (memoize_init (Option.some f) Option.none true false true folder
        fs0).1 →
      fs1 = (memoize_init (Option.some f) Option.none true false true
        folder fs0).2 →
      o1 = call_without_arguments m1 f args kwargs fs1 →
      m2 = (memoize_init (Option.some f) Option.none true false true folder
        o1.fs).1 →
      fs2 = (memoize_init (Option.some f) Option.none true false true
        folder o1.fs).2 →
      o2 = call_without_arguments m2 f args kwargs fs2 →
      o1.fncInvoked = true ∧ o2.fncInvoked = false ∧
      o2.source = "disk" ∧ o2.rawRet = o1.rawRet) := by
  refine ⟨?_, ?_, ?_, ?_⟩
  · intro m fs k p h
    simp [read_cache, h]
  · intro m fs k p h1 h2 h3
    simp [read_cache, h1, h2, h3]
  · intro m fs k h1 h2
    rcases h2 with hp | hf
    · simp [read_cache, h1, hp]
    · simp [read_cache, h1, hf]
  · intro f args kwargs folder fs0 h0 m1 fs1 o1 m2 fs2 o2 e1 e2 e3 e4 e5 e6
    subst e1
    subst e2
    subst e3
    subst e4
    subst e5
    subst e6
    have hfl : file_lookup
        (memoize_init (Option.some f) Option.none true false true folder
          fs0).2 folder (memkey f.name args kwargs) = Option.none := by
      unfold file_lookup
      rw [memoize_init_fs_files]
      exact h0
    have hv1 : cache_hit_val
        (memoize_init (Option.some f) Option.none true false true folder
          fs0).1
        (memoize_init (Option.some f) Option.none true false true folder
          fs0).2
        (keyOf (memoize_init (Option.some f) Option.none true false true
          folder fs0).1 f.name args kwargs) = Option.none := by
      rw [memoize_init_fst]
      simp [cache_hit_val, keyOf, alookup, hfl]
    have ho1 := call_miss
      (memoize_init (Option.some f) Option.none true false true folder
        fs0).1 f args kwargs
      (memoize_init (Option.some f) Option.none true false true folder
        fs0).2 hv1
    have ho1fs : (call_without_arguments
        (memoize_init (Option.some f) Option.none true false true folder
          fs0).1 f args kwargs
        (memoize_init (Option.some f) Option.none true false true folder
          fs0).2).fs =
        { (memoize_init (Option.some f) Option.none true false true folder
            fs0).2 with
            files := ((folder, memkey f.name args kwargs),
              pickle_dumps (f.run args kwargs)) ::
              (memoize_init (Option.some f) Option.none true false true
                folder fs0).2.files } := by
      rw [ho1]
      simp [memoize_init_fst, keyOf, file_exists, hfl]
    have ho1raw : (call_without_arguments
        (memoize_init (Option.some f) Option.none true false true folder
          fs0).1 f args kwargs
        (memoize_init (Option.some f) Option.none true false true folder
          fs0).2).rawRet = f.run args kwargs := by
      rw [ho1]
      rfl
    have ho1inv : (call_without_arguments
        (memoize_init (Option.some f) Option.none true false true folder
          fs0).1 f args kwargs
        (memoize_init (Option.some f) Option.none true false true folder
          fs0).2).fncInvoked = true := by
      rw [ho1]
    have hfl2 : file_lookup
        (memoize_init (Option.some f) Option.none true false true folder
          (call_without_arguments
            (memoize_init (Option.some f) Option.none true false true
              folder fs0).1 f args kwargs
            (memoize_init (Option.some f) Option.none true false true
              folder fs0).2).fs).2 folder (memkey f.name args kwargs) =
        Option.some (pickle_dumps (f.run args kwargs)) := by
      unfold file_lookup
      rw [memoize_init_fs_files, ho1fs]
      simpa using alookup_cons_self _ _ _
    have hv2 : cache_hit_val
        (memoize_init (Option.some f) Option.none true false true folder
          (call_without_arguments
            (memoize_init (Option.some f) Option.none true false true
              folder fs0).1 f args kwargs
            (memoize_init (Option.some f) Option.none true false true
              folder fs0).2).fs).1
        (memoize_init (Option.some f) Option.none true false true folder
          (call_without_arguments
            (memoize_init (Option.some f) Option.none true false true
              folder fs0).1 f args kwargs
            (memoize_init (Option.some f) Option.none true false true
              folder fs0).2).fs).2
        (keyOf (memoize_init (Option.some f) Option.none true false true
          folder
          (call_without_arguments
            (memoize_init (Option.some f) Option.none true false true
              folder fs0).1 f args kwargs
            (memoize_init (Option.some f) Option.none true false true
              folder fs0).2).fs).1 f.name args kwargs) =
        Option.some (f.run args kwargs) := by
      rw [memoize_init_fst]
      simp [cache_hit_val, keyOf, alookup, hfl2, pickle_loads,
        pickle_dumps]
    have ht2 : cache_tier
        (memoize_init (Option.some f) Option.none true false true folder
          (call_without_arguments
            (memoize_init (Option.some f) Option.none true false true
              folder fs0).1 f args kwargs
            (memoize_init (Option.some f) Option.none true false true
              folder fs0).2).fs).1
        (memoize_init (Option.some f) Option.none true false true folder
          (call_without_arguments
            (memoize_init (Option.some f) Option.none true false true
              folder fs0).1 f args kwargs
            (memoize_init (Option.some f) Option.none true false true
              folder fs0).2).fs).2
        (keyOf (memoize_init (Option.some f) Option.none true false true
          folder
          (call_without_arguments
            (memoize_init (Option.some f) Option.none true false true
              folder fs0).1 f args kwargs
            (memoize_init (Option.some f) Option.none true false true
              folder fs0).2).fs).1 f.name args kwargs) = "disk" := by
      rw [memoize_init_fst]
      simp [cache_tier, keyOf, alookup, hfl2]
    have ho2 := call_hit
      (memoize_init (Option.some f) Option.none true false true folder
        (call_without_arguments
          (memoize_init (Option.some f) Option.none true false true folder
            fs0).1 f args kwargs
          (memoize_init (Option.some f) Option.none true false true folder
            fs0).2).fs).1 f args kwargs
      (memoize_init (Option.some f) Option.none true false true folder
        (call_without_arguments
          (memoize_init (Option.some f) Option.none true false true folder
            fs0).1 f args kwargs
          (memoize_init (Option.some f) Option.none true false true folder
            fs0).2).fs).2 (f.run args kwargs) hv2
    refine ⟨ho1inv, ?_, ?_, ?_⟩
    · rw [ho2]
    · rw [ho2]
      exact ht2
    · rw [ho2, ho1raw]

/-- Witness for C4 at the concrete scenario: caching `add(1, 2)`
persistently, then pointing a fresh wrapper at the same folder, answers
the second run from disk without invoking `add`. -/
theorem C4_lookup_tier_order_witness :
    file_lookup empty_fs ".memoize"
        (memkey "add" [PyVal.int 1, PyVal.int 2] []) = Option.none ∧
    scenario_o1.fncInvoked = true ∧ scenario_o2.fncInvoked = false ∧
    scenario_o2.source = "disk" ∧
    scenario_o2.rawRet = scenario_o1.rawRet := by
  have h := C4_lookup_tier_order.2.2.2 add_fn [PyVal.int 1, PyVal.int 2]
    [] ".memoize" empty_fs rfl
    (memoize_init (Option.some add_fn) Option.none true false true
      ".memoize" empty_fs).1
    (memoize_init (Option.some add_fn) Option.none true false true
      ".memoize" empty_fs).2
    scenario_o1
    (memoize_init (Option.some add_fn) Option.none true false true
      ".memoize" scenario_o1.fs).1
    (memoize_init (Option.some add_fn) Option.none true false true
      ".memoize" scenario_o1.fs).2
    scenario_o2 rfl rfl rfl rfl rfl rfl
  exact ⟨rfl, h.1, h.2.1, h.2.2.1, h.2.2.2⟩

end Datamatrix
